import Mathlib

/-!
Verification of the retry transport package (retry.go).

The repository's single source file contains two variants of the same
package, separated by a document marker: a first variant whose `RoundTrip`
logs through a `logf` helper and whose `Abort` branch executes
`return resp, retryErr`, and a second variant whose `RoundTrip` inlines the
logger nil-checks and whose `Abort` branch executes `return nil, retryErr`.
Everything else (types, constants, loop structure) is identical between the
two variants.

The embedding below models the Go code shallowly:

* `time.Time` is an abstract tick (`Nat`); the package-level `now` clock is
  modelled by passing the value `now()` would produce as the `start`
  argument of `RoundTrip`.
* Pointers that may be nil (`*http.Response`, `error`) become `Option`.
* `*http.Response` is reduced to the two facts the loop observes: an
  identity for the body (so drain/close events can name it) and the error,
  if any, that draining the body with `io.Copy` produces.
* The underlying `http.RoundTripper` `t.Next` is an oracle from the attempt
  number to the `(response, error)` pair its `RoundTrip` returns on that
  call; the loop performs exactly one underlying call per iteration, so the
  attempt number identifies the call.
* The `Retryer` is a pure function of the `Attempt`, as the design requires
  of decision policies; the `Delayer` and the `Logger` are effect-only, so
  their invocations are recorded as events rather than values.
* The possibly infinite `for` loop becomes structural recursion on a fuel
  argument; exhausting the fuel yields `none` in place of a result, which
  models non-termination limits observably.
* Every externally visible action of the loop (underlying transport call,
  retryer call, body drain, body close, delayer call, log line) is recorded
  in order in a trace of `Event`s, so ordering and counting properties can
  be stated about runs.
-/

namespace Retry

/-- `time.Time`, reduced to an abstract instant. -/
abbrev Time := Nat

/-- Go's `error` values, reduced to their message. -/
abbrev Error := String

/-- `*http.Request`: the loop never inspects or mutates the request beyond
passing the same pointer around (and formatting it into log lines), so it is
abstract data. -/
abbrev Request := String

/-- `*http.Response`, reduced to what the retry loop observes of it: an
identity for its body (so that drain/close events can be attributed) and the
outcome of draining the body (`io.Copy` on `resp.Body` either succeeds or
returns an error, which the loop only logs). -/
structure Response where
  id : Nat
  drainErr : Option Error
  deriving DecidableEq, Repr

/-- `bodyReadLimit = int64(4096)`: the cap on how many bytes are consumed
when draining a rejected response body. -/
def bodyReadLimit : Int := 4096

/-- `type Attempt struct`: one round trip's facts. `Start` is the shared
operation start, `Count` the 1-based attempt number, `Err` the transport
error of this attempt, `Request` the original request, `Response` the
response of this attempt if any. -/
structure Attempt where
  Start : Time
  Count : Nat
  Err : Option Error
  Req : Request
  Resp : Option Response
  deriving DecidableEq, Repr

/-- `type Decision int` with the three declared constants
`Ignore`, `Retry`, `Abort` (in source order). -/
inductive Decision where
  | Ignore
  | Retry
  | Abort
  deriving DecidableEq, Repr

/-- `type Retryer func(Attempt) (Decision, error)`: the decision policy, a
pure function of the attempt. -/
abbrev Retryer := Attempt → Decision × Option Error

/-- `type Delayer func(Attempt)`: the delay policy; it only blocks, so it
carries no observable value in the model (its invocation is an event). -/
abbrev Delayer := Attempt → Unit

/-- The log lines `RoundTrip` can emit, keyed by the data formatted into
them (both variants emit the same six kinds of lines; they differ only in
cosmetic format verbs). -/
inductive LogMsg where
  | retrying (count : Nat)
  | requestError (e : Error)
  | retryerError (e : Error)
  | aborting (e : Option Error)
  | drainError (e : Error)
  | delaying
  deriving DecidableEq, Repr

/-- The externally visible actions of one run of `RoundTrip`, in order:
`callNext k` is the `t.Next.RoundTrip(req)` call of attempt `k`;
`callRetryer a` is the `retryer(attempt)` call; `drainBody k i cap` is the
`io.Copy(ioutil.Discard, io.LimitReader(resp.Body, cap))` drain of body `i`
during attempt `k`; `closeBody k i` is the `resp.Body.Close()` of body `i`
during attempt `k`; `callDelayer a` is the `t.Delay(attempt)` call; `log m`
is an emitted log line. -/
inductive Event where
  | callNext (k : Nat)
  | callRetryer (a : Attempt)
  | drainBody (k : Nat) (i : Nat) (cap : Int)
  | closeBody (k : Nat) (i : Nat)
  | callDelayer (a : Attempt)
  | log (m : LogMsg)
  deriving DecidableEq, Repr

/-- `type Transport struct`. `Next` is the underlying `http.RoundTripper`,
modelled as an oracle from the attempt number to the `(response, error)`
pair that call returns; `Logger` is reduced to its presence, since the model
records log lines as events. -/
structure Transport where
  Delay : Option Delayer
  Retry : Option Retryer
  Next : Nat → Option Response × Option Error
  Logger : Option Unit

/-- `func (t Transport) logf(format string, v ...interface{})` of the first
variant: emit the line only when a logger is configured.  The second variant
inlines the same `if t.Logger != nil` test at every call site, which is the
same function of the model's state, so both variants share this helper. -/
def Transport.logf (t : Transport) (m : LogMsg) : List Event :=
  match t.Logger with
  | some _ => [Event.log m]
  | none => []

/-- The response of attempt `k`: first component of `t.Next.RoundTrip(req)`
on the `k`-th call. -/
def respAt (t : Transport) (k : Nat) : Option Response :=
  (t.Next k).1

/-- The transport error of attempt `k`: second component of
`t.Next.RoundTrip(req)` on the `k`-th call. -/
def errAt (t : Transport) (k : Nat) : Option Error :=
  (t.Next k).2

/-- The `Attempt` record built in the loop body for attempt `k`
(`attempt := Attempt{Start: start, Count: count, Err: err, Request: req,
Response: resp}`). -/
def attemptAt (t : Transport) (req : Request) (start : Time) (k : Nat) : Attempt :=
  { Start := start, Count := k, Err := errAt t k, Req := req, Resp := respAt t k }

/-- The decision of the retryer on attempt `k`
(first component of `retryer(attempt)`). -/
def decisionAt (t : Transport) (retryer : Retryer) (req : Request) (start : Time)
    (k : Nat) : Decision :=
  (retryer (attemptAt t req start k)).1

/-- The error the retryer returns alongside its decision on attempt `k`
(second component of `retryer(attempt)`). -/
def retryErrAt (t : Transport) (retryer : Retryer) (req : Request) (start : Time)
    (k : Nat) : Option Error :=
  (retryer (attemptAt t req start k)).2

/-- The events of the shared first half of loop iteration `k`, in source
order: the `count > 1` retrying log, the underlying transport call, the
request-error log, the retryer call, the retryer-error log. -/
def stepPre (t : Transport) (retryer : Retryer) (req : Request) (start : Time)
    (k : Nat) : List Event :=
  (if 1 < k then t.logf (LogMsg.retrying k) else [])
    ++ [Event.callNext k]
    ++ (match errAt t k with
        | some e => t.logf (LogMsg.requestError e)
        | none => [])
    ++ [Event.callRetryer (attemptAt t req start k)]
    ++ (match retryErrAt t retryer req start k with
        | some e => t.logf (LogMsg.retryerError e)
        | none => [])

/-- The drain-and-close events of a `Retry` iteration `k`
(`if resp != nil { io.Copy(ioutil.Discard, io.LimitReader(resp.Body,
bodyReadLimit)); if err != nil { log }; resp.Body.Close() }`). -/
def drainEvents (t : Transport) (k : Nat) : List Event :=
  match respAt t k with
  | some r =>
      [Event.drainBody k r.id bodyReadLimit]
        ++ (match r.drainErr with
            | some e => t.logf (LogMsg.drainError e)
            | none => [])
        ++ [Event.closeBody k r.id]
  | none => []

/-- The delay events of a `Retry` iteration
(`if t.Delay != nil { log; t.Delay(attempt) }`). -/
def delayEvents (t : Transport) (a : Attempt) : List Event :=
  match t.Delay with
  | some d =>
      let _ := d a
      t.logf LogMsg.delaying ++ [Event.callDelayer a]
  | none => []

/-- All events of a loop iteration `k` whose decision is `Retry`:
the shared first half, then drain/close, then delay. -/
def retryStep (t : Transport) (retryer : Retryer) (req : Request) (start : Time)
    (k : Nat) : List Event :=
  stepPre t retryer req start k
    ++ drainEvents t k
    ++ delayEvents t (attemptAt t req start k)

/-- All events of a terminal loop iteration `k` (decision `Ignore` or
`Abort`): the shared first half, plus the aborting log on `Abort`. -/
def finalStep (t : Transport) (retryer : Retryer) (req : Request) (start : Time)
    (k : Nat) : List Event :=
  stepPre t retryer req start k
    ++ (match decisionAt t retryer req start k with
        | Decision.Abort => t.logf (LogMsg.aborting (retryErrAt t retryer req start k))
        | _ => [])

/-- The `(response, error)` pair a terminal iteration `k` of the FIRST
variant returns: `return resp, err` on `Ignore`, `return resp, retryErr`
on `Abort` (the first variant returns the attempt's response on abort).
The `Retry` arm is never reached on a terminal iteration. -/
def finalResult1 (t : Transport) (retryer : Retryer) (req : Request) (start : Time)
    (k : Nat) : Option Response × Option Error :=
  match decisionAt t retryer req start k with
  | Decision.Ignore => (respAt t k, errAt t k)
  | Decision.Abort => (respAt t k, retryErrAt t retryer req start k)
  | Decision.Retry => (none, none)

/-- The `(response, error)` pair a terminal iteration `k` of the SECOND
variant returns: `return resp, err` on `Ignore`, `return nil, retryErr`
on `Abort`. -/
def finalResult2 (t : Transport) (retryer : Retryer) (req : Request) (start : Time)
    (k : Nat) : Option Response × Option Error :=
  match decisionAt t retryer req start k with
  | Decision.Ignore => (respAt t k, errAt t k)
  | Decision.Abort => (none, retryErrAt t retryer req start k)
  | Decision.Retry => (none, none)

/-- The `for count := uint(1); ; count++` loop of the FIRST variant's
`RoundTrip`, from iteration `count` on, with `fuel` remaining iterations:
perform the underlying call, build the attempt, consult the retryer; on
`Ignore` return `(resp, err)`, on `Abort` log and return `(resp, retryErr)`,
on `Retry` drain and close the response body, invoke the delayer, and
continue with `count+1`.  Returns the event trace together with the returned
pair, or `none` when the fuel ran out before a terminal decision. -/
def roundTripLoop1 (t : Transport) (retryer : Retryer) (req : Request) (start : Time) :
    Nat → Nat → List Event × Option (Option Response × Option Error)
  | _, 0 => ([], none)
  | count, fuel + 1 =>
      match decisionAt t retryer req start count with
      | Decision.Ignore =>
          (finalStep t retryer req start count,
           some (finalResult1 t retryer req start count))
      | Decision.Abort =>
          (finalStep t retryer req start count,
           some (finalResult1 t retryer req start count))
      | Decision.Retry =>
          let rest := roundTripLoop1 t retryer req start (count + 1) fuel
          (retryStep t retryer req start count ++ rest.1, rest.2)

/-- The same loop for the SECOND variant; the sole difference is the pair
returned by the `Abort` arm (`return nil, retryErr`), captured by
`finalResult2`. -/
def roundTripLoop2 (t : Transport) (retryer : Retryer) (req : Request) (start : Time) :
    Nat → Nat → List Event × Option (Option Response × Option Error)
  | _, 0 => ([], none)
  | count, fuel + 1 =>
      match decisionAt t retryer req start count with
      | Decision.Ignore =>
          (finalStep t retryer req start count,
           some (finalResult2 t retryer req start count))
      | Decision.Abort =>
          (finalStep t retryer req start count,
           some (finalResult2 t retryer req start count))
      | Decision.Retry =>
          let rest := roundTripLoop2 t retryer req start (count + 1) fuel
          (retryStep t retryer req start count ++ rest.1, rest.2)

/-- Modelled from the spec: the repository references a package-level
`DefaultRetryer` that is not part of this source file; the design only
requires that some default decision policy exist as a fallback when no
`Retry` policy is configured, its exact rule being outside the core's
scope.  Its concrete rule is irrelevant to every theorem below. -/
def DefaultRetryer : Retryer := fun _ => (Decision.Ignore, none)

/-- Lines 67-72 of both variants: the retryer actually used by the loop,
`t.Retry` unless it is nil, in which case `DefaultRetryer`. -/
def Transport.effectiveRetryer (t : Transport) : Retryer :=
  match t.Retry with
  | some r => r
  | none => DefaultRetryer

/-- `func (t Transport) RoundTrip(req *http.Request)` of the FIRST variant:
capture `start`, substitute the default retryer if none is configured, and
run the loop from attempt 1. -/
def Transport.RoundTrip1 (t : Transport) (req : Request) (start : Time) (fuel : Nat) :
    List Event × Option (Option Response × Option Error) :=
  roundTripLoop1 t t.effectiveRetryer req start 1 fuel

/-- `func (t Transport) RoundTrip(req *http.Request)` of the SECOND
variant. -/
def Transport.RoundTrip2 (t : Transport) (req : Request) (start : Time) (fuel : Nat) :
    List Event × Option (Option Response × Option Error) :=
  roundTripLoop2 t t.effectiveRetryer req start 1 fuel

/-- The attempt numbers of the underlying transport calls recorded in a
trace, in order. -/
def nextCalls (tr : List Event) : List Nat :=
  tr.filterMap fun e =>
    match e with
    | Event.callNext k => some k
    | _ => none

/-- The attempts passed to the retryer, in order. -/
def retryerCalls (tr : List Event) : List Attempt :=
  tr.filterMap fun e =>
    match e with
    | Event.callRetryer a => some a
    | _ => none

/-- The attempts passed to the delayer, in order. -/
def delayerCalls (tr : List Event) : List Attempt :=
  tr.filterMap fun e =>
    match e with
    | Event.callDelayer a => some a
    | _ => none

/-- Whether an event is a `resp.Body.Close()`. -/
def Event.isClose : Event → Bool
  | Event.closeBody _ _ => true
  | _ => false

/-- Whether an event is a body drain. -/
def Event.isDrain : Event → Bool
  | Event.drainBody _ _ _ => true
  | _ => false

/-- Whether an event is a log line. -/
def Event.isLog : Event → Bool
  | Event.log _ => true
  | _ => false

/-- `e1` occurs at a strictly earlier position than `e2` in the trace. -/
def occursBefore (tr : List Event) (e1 e2 : Event) : Prop :=
  ∃ i j : Nat, i < j ∧ tr[i]? = some e1 ∧ tr[j]? = some e2

/-! ### Normalisation of the per-attempt oracles over an explicit transport -/

@[simp] lemma respAt_mk (d : Option Delayer) (r : Option Retryer)
    (n : Nat → Option Response × Option Error) (l : Option Unit) (k : Nat) :
    respAt ⟨d, r, n, l⟩ k = (n k).1 := rfl

@[simp] lemma errAt_mk (d : Option Delayer) (r : Option Retryer)
    (n : Nat → Option Response × Option Error) (l : Option Unit) (k : Nat) :
    errAt ⟨d, r, n, l⟩ k = (n k).2 := rfl

@[simp] lemma attemptAt_mk (d : Option Delayer) (r : Option Retryer)
    (n : Nat → Option Response × Option Error) (l : Option Unit)
    (req : Request) (start : Time) (k : Nat) :
    attemptAt ⟨d, r, n, l⟩ req start k
      = { Start := start, Count := k, Err := (n k).2, Req := req, Resp := (n k).1 } := rfl

@[simp] lemma decisionAt_mk (d : Option Delayer) (r : Option Retryer)
    (n : Nat → Option Response × Option Error) (l : Option Unit)
    (retryer : Retryer) (req : Request) (start : Time) (k : Nat) :
    decisionAt ⟨d, r, n, l⟩ retryer req start k
      = (retryer { Start := start, Count := k, Err := (n k).2, Req := req, Resp := (n k).1 }).1 := rfl

@[simp] lemma retryErrAt_mk (d : Option Delayer) (r : Option Retryer)
    (n : Nat → Option Response × Option Error) (l : Option Unit)
    (retryer : Retryer) (req : Request) (start : Time) (k : Nat) :
    retryErrAt ⟨d, r, n, l⟩ retryer req start k
      = (retryer { Start := start, Count := k, Err := (n k).2, Req := req, Resp := (n k).1 }).2 := rfl

/-! ### What each trace block contributes to the extractors -/

lemma nextCalls_append (l1 l2 : List Event) :
    nextCalls (l1 ++ l2) = nextCalls l1 ++ nextCalls l2 :=
  List.filterMap_append l1 l2 _

lemma retryerCalls_append (l1 l2 : List Event) :
    retryerCalls (l1 ++ l2) = retryerCalls l1 ++ retryerCalls l2 :=
  List.filterMap_append l1 l2 _

lemma delayerCalls_append (l1 l2 : List Event) :
    delayerCalls (l1 ++ l2) = delayerCalls l1 ++ delayerCalls l2 :=
  List.filterMap_append l1 l2 _

lemma nextCalls_logf (t : Transport) (m : LogMsg) : nextCalls (t.logf m) = [] := by
  rcases hL : t.Logger with _ | u <;> simp [Transport.logf, hL, nextCalls]

lemma retryerCalls_logf (t : Transport) (m : LogMsg) : retryerCalls (t.logf m) = [] := by
  rcases hL : t.Logger with _ | u <;> simp [Transport.logf, hL, retryerCalls]

lemma delayerCalls_logf (t : Transport) (m : LogMsg) : delayerCalls (t.logf m) = [] := by
  rcases hL : t.Logger with _ | u <;> simp [Transport.logf, hL, delayerCalls]

lemma nextCalls_stepPre (t : Transport) (retryer : Retryer) (req : Request) (start : Time)
    (k : Nat) : nextCalls (stepPre t retryer req start k) = [k] := by
  unfold stepPre
  rcases hL : t.Logger with _ | u <;>
    rcases hE : errAt t k with _ | e <;>
    rcases hR : retryErrAt t retryer req start k with _ | e2 <;>
    by_cases hk : 1 < k <;>
    simp [nextCalls, Transport.logf, hL, hE, hR, hk]

lemma retryerCalls_stepPre (t : Transport) (retryer : Retryer) (req : Request) (start : Time)
    (k : Nat) :
    retryerCalls (stepPre t retryer req start k) = [attemptAt t req start k] := by
  unfold stepPre
  rcases hL : t.Logger with _ | u <;>
    rcases hE : errAt t k with _ | e <;>
    rcases hR : retryErrAt t retryer req start k with _ | e2 <;>
    by_cases hk : 1 < k <;>
    simp [retryerCalls, Transport.logf, hL, hE, hR, hk]

lemma delayerCalls_stepPre (t : Transport) (retryer : Retryer) (req : Request) (start : Time)
    (k : Nat) : delayerCalls (stepPre t retryer req start k) = [] := by
  unfold stepPre
  rcases hL : t.Logger with _ | u <;>
    rcases hE : errAt t k with _ | e <;>
    rcases hR : retryErrAt t retryer req start k with _ | e2 <;>
    by_cases hk : 1 < k <;>
    simp [delayerCalls, Transport.logf, hL, hE, hR, hk]

lemma nextCalls_drainEvents (t : Transport) (k : Nat) :
    nextCalls (drainEvents t k) = [] := by
  unfold drainEvents
  rcases hL : t.Logger with _ | u <;> rcases hRp : respAt t k with _ | r
  · simp [nextCalls]
  · rcases hD : r.drainErr with _ | e <;> simp [nextCalls, Transport.logf, hL, hD]
  · simp [nextCalls]
  · rcases hD : r.drainErr with _ | e <;> simp [nextCalls, Transport.logf, hL, hD]

lemma retryerCalls_drainEvents (t : Transport) (k : Nat) :
    retryerCalls (drainEvents t k) = [] := by
  unfold drainEvents
  rcases hL : t.Logger with _ | u <;> rcases hRp : respAt t k with _ | r
  · simp [retryerCalls]
  · rcases hD : r.drainErr with _ | e <;> simp [retryerCalls, Transport.logf, hL, hD]
  · simp [retryerCalls]
  · rcases hD : r.drainErr with _ | e <;> simp [retryerCalls, Transport.logf, hL, hD]

lemma delayerCalls_drainEvents (t : Transport) (k : Nat) :
    delayerCalls (drainEvents t k) = [] := by
  unfold drainEvents
  rcases hL : t.Logger with _ | u <;> rcases hRp : respAt t k with _ | r
  · simp [delayerCalls]
  · rcases hD : r.drainErr with _ | e <;> simp [delayerCalls, Transport.logf, hL, hD]
  · simp [delayerCalls]
  · rcases hD : r.drainErr with _ | e <;> simp [delayerCalls, Transport.logf, hL, hD]

lemma nextCalls_delayEvents (t : Transport) (a : Attempt) :
    nextCalls (delayEvents t a) = [] := by
  unfold delayEvents
  rcases hL : t.Logger with _ | u <;>
    rcases hD : t.Delay with _ | dl <;>
    simp [nextCalls, Transport.logf, hL, hD]

lemma retryerCalls_delayEvents (t : Transport) (a : Attempt) :
    retryerCalls (delayEvents t a) = [] := by
  unfold delayEvents
  rcases hL : t.Logger with _ | u <;>
    rcases hD : t.Delay with _ | dl <;>
    simp [retryerCalls, Transport.logf, hL, hD]

lemma delayerCalls_delayEvents (t : Transport) (a : Attempt) :
    delayerCalls (delayEvents t a)
      = match t.Delay with | some _ => [a] | none => [] := by
  unfold delayEvents
  rcases hL : t.Logger with _ | u <;>
    rcases hD : t.Delay with _ | dl <;>
    simp [delayerCalls, Transport.logf, hL, hD]

lemma nextCalls_retryStep (t : Transport) (retryer : Retryer) (req : Request) (start : Time)
    (k : Nat) : nextCalls (retryStep t retryer req start k) = [k] := by
  unfold retryStep
  simp [nextCalls_append, nextCalls_stepPre, nextCalls_drainEvents, nextCalls_delayEvents]

lemma retryerCalls_retryStep (t : Transport) (retryer : Retryer) (req : Request) (start : Time)
    (k : Nat) :
    retryerCalls (retryStep t retryer req start k) = [attemptAt t req start k] := by
  unfold retryStep
  simp [retryerCalls_append, retryerCalls_stepPre, retryerCalls_drainEvents,
    retryerCalls_delayEvents]

lemma delayerCalls_retryStep (t : Transport) (retryer : Retryer) (req : Request) (start : Time)
    (k : Nat) :
    delayerCalls (retryStep t retryer req start k)
      = match t.Delay with | some _ => [attemptAt t req start k] | none => [] := by
  unfold retryStep
  simp [delayerCalls_append, delayerCalls_stepPre, delayerCalls_drainEvents,
    delayerCalls_delayEvents]

lemma nextCalls_finalStep (t : Transport) (retryer : Retryer) (req : Request) (start : Time)
    (k : Nat) : nextCalls (finalStep t retryer req start k) = [k] := by
  unfold finalStep
  rcases hd : decisionAt t retryer req start k <;>
    simp [nextCalls_append, nextCalls_stepPre, nextCalls_logf]

lemma retryerCalls_finalStep (t : Transport) (retryer : Retryer) (req : Request) (start : Time)
    (k : Nat) :
    retryerCalls (finalStep t retryer req start k) = [attemptAt t req start k] := by
  unfold finalStep
  rcases hd : decisionAt t retryer req start k <;>
    simp [retryerCalls_append, retryerCalls_stepPre, retryerCalls_logf]

lemma delayerCalls_finalStep (t : Transport) (retryer : Retryer) (req : Request) (start : Time)
    (k : Nat) : delayerCalls (finalStep t retryer req start k) = [] := by
  unfold finalStep
  rcases hd : decisionAt t retryer req start k <;>
    simp [delayerCalls_append, delayerCalls_stepPre, delayerCalls_logf]

/-! ### Structure of loop runs -/

lemma loop1_final (t : Transport) (retryer : Retryer) (req : Request) (start : Time)
    (count fuel : Nat) (h : decisionAt t retryer req start count ≠ Decision.Retry) :
    roundTripLoop1 t retryer req start count (fuel + 1)
      = (finalStep t retryer req start count,
         some (finalResult1 t retryer req start count)) := by
  cases hd : decisionAt t retryer req start count with
  | Ignore => simp [roundTripLoop1, hd]
  | Abort => simp [roundTripLoop1, hd]
  | Retry => exact absurd hd h

lemma loop2_final (t : Transport) (retryer : Retryer) (req : Request) (start : Time)
    (count fuel : Nat) (h : decisionAt t retryer req start count ≠ Decision.Retry) :
    roundTripLoop2 t retryer req start count (fuel + 1)
      = (finalStep t retryer req start count,
         some (finalResult2 t retryer req start count)) := by
  cases hd : decisionAt t retryer req start count with
  | Ignore => simp [roundTripLoop2, hd]
  | Abort => simp [roundTripLoop2, hd]
  | Retry => exact absurd hd h

lemma loop1_retry_step (t : Transport) (retryer : Retryer) (req : Request) (start : Time)
    (count fuel : Nat) (h : decisionAt t retryer req start count = Decision.Retry) :
    roundTripLoop1 t retryer req start count (fuel + 1)
      = (retryStep t retryer req start count
           ++ (roundTripLoop1 t retryer req start (count + 1) fuel).1,
         (roundTripLoop1 t retryer req start (count + 1) fuel).2) := by
  simp [roundTripLoop1, h]

lemma loop2_retry_step (t : Transport) (retryer : Retryer) (req : Request) (start : Time)
    (count fuel : Nat) (h : decisionAt t retryer req start count = Decision.Retry) :
    roundTripLoop2 t retryer req start count (fuel + 1)
      = (retryStep t retryer req start count
           ++ (roundTripLoop2 t retryer req start (count + 1) fuel).1,
         (roundTripLoop2 t retryer req start (count + 1) fuel).2) := by
  simp [roundTripLoop2, h]

/-- Peeling `m` consecutive `Retry` iterations off the front of a run. -/
lemma loop1_peelRetries (t : Transport) (retryer : Retryer) (req : Request) (start : Time)
    (m : Nat) : ∀ count fuel : Nat,
    (∀ j, count ≤ j → j < count + m → decisionAt t retryer req start j = Decision.Retry) →
    roundTripLoop1 t retryer req start count (m + fuel)
      = ((List.range' count m).flatMap (retryStep t retryer req start)
           ++ (roundTripLoop1 t retryer req start (count + m) fuel).1,
         (roundTripLoop1 t retryer req start (count + m) fuel).2) := by
  induction m with
  | zero => intro count fuel _; simp
  | succ m ih =>
      intro count fuel h
      have hd : decisionAt t retryer req start count = Decision.Retry :=
        h count le_rfl (by omega)
      have harith : m + 1 + fuel = (m + fuel) + 1 := by omega
      rw [harith, loop1_retry_step t retryer req start count (m + fuel) hd,
        ih (count + 1) fuel (fun j hj1 hj2 => h j (by omega) (by omega))]
      have harith2 : count + 1 + m = count + (m + 1) := by omega
      rw [harith2]
      simp [List.range'_succ, List.append_assoc]

/-- A run whose decisions are `Retry` up to attempt `N` exclusive and
terminal at attempt `N` decomposes into the `Retry` iterations followed by
the terminal iteration (first variant). -/
lemma loop1_decomp (t : Transport) (retryer : Retryer) (req : Request) (start : Time)
    (count N fuel : Nat) (h1 : count ≤ N) (h2 : N < count + fuel)
    (hretry : ∀ k, count ≤ k → k < N → decisionAt t retryer req start k = Decision.Retry)
    (hstop : decisionAt t retryer req start N ≠ Decision.Retry) :
    roundTripLoop1 t retryer req start count fuel
      = ((List.range' count (N - count)).flatMap (retryStep t retryer req start)
           ++ finalStep t retryer req start N,
         some (finalResult1 t retryer req start N)) := by
  obtain ⟨s, rfl⟩ : ∃ s, fuel = (N - count) + (s + 1) := ⟨fuel - (N - count) - 1, by omega⟩
  rw [loop1_peelRetries t retryer req start (N - count) count (s + 1)
    (fun j hj1 hj2 => hretry j hj1 (by omega))]
  have hcN : count + (N - count) = N := by omega
  rw [hcN, loop1_final t retryer req start N s hstop]

/-- If the decision is `Retry` on every attempt from `count` on, no amount
of fuel produces a result: the loop runs indefinitely. -/
lemma loop1_nonterm (t : Transport) (retryer : Retryer) (req : Request) (start : Time) :
    ∀ fuel count : Nat,
    (∀ k, count ≤ k → decisionAt t retryer req start k = Decision.Retry) →
    (roundTripLoop1 t retryer req start count fuel).2 = none := by
  intro fuel
  induction fuel with
  | zero => intro count _; rfl
  | succ fuel ih =>
      intro count h
      rw [loop1_retry_step t retryer req start count fuel (h count le_rfl)]
      exact ih (count + 1) (fun k hk => h k (by omega))

/-- Every positive-fuel run's trace starts with the shared first half of its
first iteration. -/
lemma loop1_trace_head (t : Transport) (retryer : Retryer) (req : Request) (start : Time)
    (count fuel : Nat) :
    ∃ tl, (roundTripLoop1 t retryer req start count (fuel + 1)).1
      = stepPre t retryer req start count ++ tl := by
  cases hd : decisionAt t retryer req start count with
  | Ignore =>
      refine ⟨(match decisionAt t retryer req start count with
        | Decision.Abort => t.logf (LogMsg.aborting (retryErrAt t retryer req start count))
        | _ => []), ?_⟩
      rw [loop1_final t retryer req start count fuel (by simp [hd])]
      simp [finalStep]
  | Abort =>
      refine ⟨(match decisionAt t retryer req start count with
        | Decision.Abort => t.logf (LogMsg.aborting (retryErrAt t retryer req start count))
        | _ => []), ?_⟩
      rw [loop1_final t retryer req start count fuel (by simp [hd])]
      simp [finalStep]
  | Retry =>
      refine ⟨drainEvents t count ++ delayEvents t (attemptAt t req start count)
        ++ (roundTripLoop1 t retryer req start (count + 1) fuel).1, ?_⟩
      rw [loop1_retry_step t retryer req start count fuel hd]
      simp [retryStep, List.append_assoc]

/-- The two variants' loops produce identical traces. -/
lemma loop2_trace_eq (t : Transport) (retryer : Retryer) (req : Request) (start : Time) :
    ∀ fuel count : Nat,
    (roundTripLoop2 t retryer req start count fuel).1
      = (roundTripLoop1 t retryer req start count fuel).1 := by
  intro fuel
  induction fuel with
  | zero => intro count; rfl
  | succ fuel ih =>
      intro count
      cases hd : decisionAt t retryer req start count with
      | Ignore =>
          rw [loop1_final t retryer req start count fuel (by simp [hd]),
            loop2_final t retryer req start count fuel (by simp [hd])]
      | Abort =>
          rw [loop1_final t retryer req start count fuel (by simp [hd]),
            loop2_final t retryer req start count fuel (by simp [hd])]
      | Retry =>
          rw [loop1_retry_step t retryer req start count fuel hd,
            loop2_retry_step t retryer req start count fuel hd]
          simp [ih (count + 1)]

/-- The two variants' loops return the same pair, except that where the
first returns a non-null response (which only happens on `Abort`, paired
with the policy error), the second returns a null one with the same
error. -/
lemma loop2_result_rel (t : Transport) (retryer : Retryer) (req : Request) (start : Time) :
    ∀ fuel count : Nat,
    (roundTripLoop2 t retryer req start count fuel).2
        = (roundTripLoop1 t retryer req start count fuel).2
    ∨ ∃ r e, (roundTripLoop1 t retryer req start count fuel).2 = some (some r, e)
        ∧ (roundTripLoop2 t retryer req start count fuel).2 = some (none, e) := by
  intro fuel
  induction fuel with
  | zero => intro count; left; rfl
  | succ fuel ih =>
      intro count
      cases hd : decisionAt t retryer req start count with
      | Ignore =>
          left
          rw [loop1_final t retryer req start count fuel (by simp [hd]),
            loop2_final t retryer req start count fuel (by simp [hd])]
          simp [finalResult1, finalResult2, hd]
      | Abort =>
          rw [loop1_final t retryer req start count fuel (by simp [hd]),
            loop2_final t retryer req start count fuel (by simp [hd])]
          rcases hr : respAt t count with _ | r
          · left; simp [finalResult1, finalResult2, hd, hr]
          · right
            exact ⟨r, retryErrAt t retryer req start count,
              by simp [finalResult1, hd, hr], by simp [finalResult2, hd]⟩
      | Retry =>
          rw [loop1_retry_step t retryer req start count fuel hd,
            loop2_retry_step t retryer req start count fuel hd]
          exact ih (count + 1)

/-! ### Ordering of events within a trace -/

lemma occursBefore_of_append {l1 l2 : List Event} {e1 e2 : Event}
    (h1 : e1 ∈ l1) (h2 : e2 ∈ l2) : occursBefore (l1 ++ l2) e1 e2 := by
  obtain ⟨i, hi⟩ := List.get?_of_mem h1
  obtain ⟨j, hj⟩ := List.get?_of_mem h2
  rw [List.get?_eq_getElem?] at hi hj
  have hlt : i < l1.length := by
    obtain ⟨h, _⟩ := List.getElem?_eq_some.mp hi
    exact h
  refine ⟨i, l1.length + j, by omega, ?_, ?_⟩
  · rw [List.getElem?_append_left hlt]; exact hi
  · rw [List.getElem?_append_right (by omega)]
    simpa using hj

lemma occursBefore_of_eq_append (tr l1 l2 : List Event) (e1 e2 : Event)
    (h : tr = l1 ++ l2) (h1 : e1 ∈ l1) (h2 : e2 ∈ l2) : occursBefore tr e1 e2 :=
  h ▸ occursBefore_of_append h1 h2

/-- `[1, ..., N] = [1, ..., N-1] ++ [N]` for `N ≥ 1`. -/
lemma range'_one_split (N : Nat) (h : 1 ≤ N) :
    List.range' 1 N = List.range' 1 (N - 1) ++ [N] := by
  have h1 : N = (N - 1) + 1 := by omega
  calc List.range' 1 N = List.range' 1 ((N - 1) + 1) := by rw [← h1]
    _ = List.range' 1 (N - 1) ++ [1 + 1 * (N - 1)] := List.range'_concat 1 (N - 1)
    _ = List.range' 1 (N - 1) ++ [N] := by
          congr 2
          omega

lemma callNext_mem_stepPre (t : Transport) (retryer : Retryer) (req : Request)
    (start : Time) (k : Nat) :
    Event.callNext k ∈ stepPre t retryer req start k := by
  unfold stepPre
  simp

lemma callDelayer_mem_retryStep (t : Transport) (retryer : Retryer) (req : Request)
    (start : Time) (k : Nat) (dl : Delayer) (hD : t.Delay = some dl) :
    Event.callDelayer (attemptAt t req start k) ∈ retryStep t retryer req start k := by
  unfold retryStep delayEvents
  simp [hD]

/-- Isolating one `Retry` iteration `k` of a run whose first `k` decisions
are all `Retry`, together with the fact that the next underlying call does
appear in the remainder of the trace. -/
lemma loop1_split_at_retry (t : Transport) (retryer : Retryer) (req : Request)
    (start : Time) (fuel k : Nat) (hk : 1 ≤ k) (hfuel : k + 1 ≤ fuel)
    (hretry : ∀ j, 1 ≤ j → j ≤ k → decisionAt t retryer req start j = Decision.Retry) :
    ∃ A tail, (roundTripLoop1 t retryer req start 1 fuel).1
        = A ++ (retryStep t retryer req start k ++ tail)
      ∧ Event.callNext (k + 1) ∈ tail := by
  obtain ⟨s, rfl⟩ : ∃ s, fuel = (k - 1) + ((s + 1) + 1) := ⟨fuel - k - 1, by omega⟩
  have hpre := loop1_peelRetries t retryer req start (k - 1) 1 ((s + 1) + 1)
    (fun j hj1 hj2 => hretry j hj1 (by omega))
  have hk1 : 1 + (k - 1) = k := by omega
  rw [hk1] at hpre
  have hdk : decisionAt t retryer req start k = Decision.Retry := hretry k hk le_rfl
  have hstep := loop1_retry_step t retryer req start k (s + 1) hdk
  refine ⟨(List.range' 1 (k - 1)).flatMap (retryStep t retryer req start),
    (roundTripLoop1 t retryer req start (k + 1) (s + 1)).1, ?_, ?_⟩
  · rw [congrArg Prod.fst hpre, congrArg Prod.fst hstep]
  · obtain ⟨tl, htl⟩ := loop1_trace_head t retryer req start (k + 1) s
    rw [htl]
    exact List.mem_append_left _ (callNext_mem_stepPre t retryer req start (k + 1))

/-! ### The trace with its log lines removed -/

lemma filter_notLog_logf (t : Transport) (m : LogMsg) :
    (t.logf m).filter (fun e => !e.isLog) = [] := by
  rcases hL : t.Logger with _ | u <;> simp [Transport.logf, hL, Event.isLog]

lemma filter_notLog_stepPre (t : Transport) (retryer : Retryer) (req : Request)
    (start : Time) (k : Nat) :
    (stepPre t retryer req start k).filter (fun e => !e.isLog)
      = [Event.callNext k, Event.callRetryer (attemptAt t req start k)] := by
  unfold stepPre
  rcases hL : t.Logger with _ | u <;>
    rcases hE : errAt t k with _ | e <;>
    rcases hR : retryErrAt t retryer req start k with _ | e2 <;>
    by_cases hk : 1 < k <;>
    simp [Transport.logf, hL, hk, Event.isLog, List.filter_append]

lemma filter_notLog_drainEvents (t : Transport) (k : Nat) :
    (drainEvents t k).filter (fun e => !e.isLog)
      = match respAt t k with
        | some r => [Event.drainBody k r.id bodyReadLimit, Event.closeBody k r.id]
        | none => [] := by
  unfold drainEvents
  rcases hL : t.Logger with _ | u <;> rcases hRp : respAt t k with _ | r
  · simp
  · rcases hD : r.drainErr with _ | e <;>
      simp [Transport.logf, hL, hD, Event.isLog, List.filter_append]
  · simp
  · rcases hD : r.drainErr with _ | e <;>
      simp [Transport.logf, hL, hD, Event.isLog, List.filter_append]

lemma filter_notLog_delayEvents (t : Transport) (a : Attempt) :
    (delayEvents t a).filter (fun e => !e.isLog)
      = match t.Delay with
        | some _ => [Event.callDelayer a]
        | none => [] := by
  unfold delayEvents
  rcases hL : t.Logger with _ | u <;> rcases hD : t.Delay with _ | dl <;>
    simp [Transport.logf, hL, hD, Event.isLog, List.filter_append]

lemma filter_notLog_retryStep (t : Transport) (retryer : Retryer) (req : Request)
    (start : Time) (k : Nat) :
    (retryStep t retryer req start k).filter (fun e => !e.isLog)
      = [Event.callNext k, Event.callRetryer (attemptAt t req start k)]
          ++ (match respAt t k with
              | some r => [Event.drainBody k r.id bodyReadLimit, Event.closeBody k r.id]
              | none => [])
          ++ (match t.Delay with
              | some _ => [Event.callDelayer (attemptAt t req start k)]
              | none => []) := by
  unfold retryStep
  rw [List.filter_append, List.filter_append, filter_notLog_stepPre,
    filter_notLog_drainEvents, filter_notLog_delayEvents]

lemma filter_notLog_finalStep (t : Transport) (retryer : Retryer) (req : Request)
    (start : Time) (k : Nat) :
    (finalStep t retryer req start k).filter (fun e => !e.isLog)
      = [Event.callNext k, Event.callRetryer (attemptAt t req start k)] := by
  unfold finalStep
  rcases hd : decisionAt t retryer req start k <;>
    simp [List.filter_append, filter_notLog_stepPre, filter_notLog_logf]

/-- Extractors that ignore log events are insensitive to removing them. -/
lemma filterMap_filter_notLog {α : Type} (f : Event → Option α)
    (hf : ∀ m, f (Event.log m) = none) (tr : List Event) :
    (tr.filter (fun e => !e.isLog)).filterMap f = tr.filterMap f := by
  induction tr with
  | nil => rfl
  | cons e tr ih =>
      by_cases hl : e.isLog = true
      · obtain ⟨m, rfl⟩ : ∃ m, e = Event.log m := by
          cases e <;> simp [Event.isLog] at hl ⊢
        rw [List.filter_cons_of_neg (by simp [Event.isLog]), List.filterMap_cons,
          hf m, ih]
      · rw [List.filter_cons_of_pos (by simpa using hl),
          List.filterMap_cons, List.filterMap_cons, ih]

lemma nextCalls_filter_notLog (tr : List Event) :
    nextCalls (tr.filter (fun e => !e.isLog)) = nextCalls tr :=
  filterMap_filter_notLog _ (fun _ => rfl) tr

lemma retryerCalls_filter_notLog (tr : List Event) :
    retryerCalls (tr.filter (fun e => !e.isLog)) = retryerCalls tr :=
  filterMap_filter_notLog _ (fun _ => rfl) tr

lemma delayerCalls_filter_notLog (tr : List Event) :
    delayerCalls (tr.filter (fun e => !e.isLog)) = delayerCalls tr :=
  filterMap_filter_notLog _ (fun _ => rfl) tr

/-! ### The logger does not influence the run -/

/-- First variant: the runs with and without a logger agree on everything
but the log lines. -/
lemma loop1_logger (d : Option Delayer) (r : Option Retryer)
    (n : Nat → Option Response × Option Error) (retryer : Retryer)
    (req : Request) (start : Time) :
    ∀ fuel count : Nat,
    ((roundTripLoop1 ⟨d, r, n, none⟩ retryer req start count fuel).1.filter
        (fun e => !e.isLog)
      = (roundTripLoop1 ⟨d, r, n, some ()⟩ retryer req start count fuel).1.filter
        (fun e => !e.isLog))
    ∧ (roundTripLoop1 ⟨d, r, n, none⟩ retryer req start count fuel).2
      = (roundTripLoop1 ⟨d, r, n, some ()⟩ retryer req start count fuel).2 := by
  intro fuel
  induction fuel with
  | zero => intro count; exact ⟨rfl, rfl⟩
  | succ fuel ih =>
      intro count
      cases hd : (retryer ⟨start, count, (n count).2, req, (n count).1⟩).1 with
      | Retry =>
          rw [loop1_retry_step ⟨d, r, n, none⟩ retryer req start count fuel (by simp [hd]),
            loop1_retry_step ⟨d, r, n, some ()⟩ retryer req start count fuel (by simp [hd])]
          constructor
          · simp only [List.filter_append, filter_notLog_retryStep]
            rw [(ih (count + 1)).1]
            simp
          · exact (ih (count + 1)).2
      | Ignore =>
          rw [loop1_final ⟨d, r, n, none⟩ retryer req start count fuel (by simp [hd]),
            loop1_final ⟨d, r, n, some ()⟩ retryer req start count fuel (by simp [hd])]
          constructor
          · rw [filter_notLog_finalStep, filter_notLog_finalStep]
            simp
          · simp [finalResult1, hd]
      | Abort =>
          rw [loop1_final ⟨d, r, n, none⟩ retryer req start count fuel (by simp [hd]),
            loop1_final ⟨d, r, n, some ()⟩ retryer req start count fuel (by simp [hd])]
          constructor
          · rw [filter_notLog_finalStep, filter_notLog_finalStep]
            simp
          · simp [finalResult1, hd]

/-- Second variant: the returned pair does not depend on the logger. -/
lemma loop2_logger_result (d : Option Delayer) (r : Option Retryer)
    (n : Nat → Option Response × Option Error) (retryer : Retryer)
    (req : Request) (start : Time) :
    ∀ fuel count : Nat,
    (roundTripLoop2 ⟨d, r, n, none⟩ retryer req start count fuel).2
      = (roundTripLoop2 ⟨d, r, n, some ()⟩ retryer req start count fuel).2 := by
  intro fuel
  induction fuel with
  | zero => intro count; rfl
  | succ fuel ih =>
      intro count
      cases hd : (retryer ⟨start, count, (n count).2, req, (n count).1⟩).1 with
      | Retry =>
          rw [loop2_retry_step ⟨d, r, n, none⟩ retryer req start count fuel (by simp [hd]),
            loop2_retry_step ⟨d, r, n, some ()⟩ retryer req start count fuel (by simp [hd])]
          exact ih (count + 1)
      | Ignore =>
          rw [loop2_final ⟨d, r, n, none⟩ retryer req start count fuel (by simp [hd]),
            loop2_final ⟨d, r, n, some ()⟩ retryer req start count fuel (by simp [hd])]
          simp [finalResult2, hd]
      | Abort =>
          rw [loop2_final ⟨d, r, n, none⟩ retryer req start count fuel (by simp [hd]),
            loop2_final ⟨d, r, n, some ()⟩ retryer req start count fuel (by simp [hd])]
          simp [finalResult2, hd]

/-! ### Extractor values over flattened iteration blocks -/

lemma nextCalls_flatMap_retryStep (t : Transport) (retryer : Retryer) (req : Request)
    (start : Time) (l : List Nat) :
    nextCalls (l.flatMap (retryStep t retryer req start)) = l := by
  show List.filterMap _ _ = l
  rw [List.filterMap_flatMap]
  have hf : (fun a => List.filterMap
      (fun e => match e with | Event.callNext k => some k | _ => none)
      (retryStep t retryer req start a)) = fun a => [a] :=
    funext fun a => nextCalls_retryStep t retryer req start a
  rw [hf, List.flatMap_singleton']

lemma retryerCalls_flatMap_retryStep (t : Transport) (retryer : Retryer) (req : Request)
    (start : Time) (l : List Nat) :
    retryerCalls (l.flatMap (retryStep t retryer req start))
      = l.map (attemptAt t req start) := by
  show List.filterMap _ _ = _
  rw [List.filterMap_flatMap]
  have hf : (fun a => List.filterMap
      (fun e => match e with | Event.callRetryer a => some a | _ => none)
      (retryStep t retryer req start a)) = fun a => [attemptAt t req start a] :=
    funext fun a => retryerCalls_retryStep t retryer req start a
  rw [hf, ← List.map_eq_flatMap]

lemma flatMap_constNil {α β : Type} (l : List α) :
    (l.flatMap fun _ => ([] : List β)) = [] := by
  induction l with
  | nil => rfl
  | cons a l ih => simp [List.flatMap_cons, ih]

lemma delayerCalls_flatMap_retryStep_some (t : Transport) (retryer : Retryer)
    (req : Request) (start : Time) (l : List Nat) (dl : Delayer)
    (hD : t.Delay = some dl) :
    delayerCalls (l.flatMap (retryStep t retryer req start))
      = l.map (attemptAt t req start) := by
  show List.filterMap _ _ = _
  rw [List.filterMap_flatMap]
  have hf : (fun a => List.filterMap
      (fun e => match e with | Event.callDelayer a => some a | _ => none)
      (retryStep t retryer req start a)) = fun a => [attemptAt t req start a] := by
    funext a
    have := delayerCalls_retryStep t retryer req start a
    rw [hD] at this
    exact this
  rw [hf, ← List.map_eq_flatMap]

lemma delayerCalls_flatMap_retryStep_none (t : Transport) (retryer : Retryer)
    (req : Request) (start : Time) (l : List Nat) (hD : t.Delay = none) :
    delayerCalls (l.flatMap (retryStep t retryer req start)) = [] := by
  show List.filterMap _ _ = _
  rw [List.filterMap_flatMap]
  have hf : (fun a => List.filterMap
      (fun e => match e with | Event.callDelayer a => some a | _ => none)
      (retryStep t retryer req start a)) = fun a => ([] : List Attempt) := by
    funext a
    have := delayerCalls_retryStep t retryer req start a
    rw [hD] at this
    exact this
  rw [hf, flatMap_constNil]

/-! ## The claims -/

/-- C2: if the retryer decides `Retry` on attempts `1..N-1` and decides
`Ignore` or `Abort` on attempt `N`, the first variant's `RoundTrip` performs
exactly `N` underlying transport calls, the attempts handed to the retryer
are exactly the attempt records of calls `1..N` in order, and the record of
the `k`-th call carries `Count = k` and the `start` timestamp captured once
at entry. -/
theorem roundTrip_attempt_bookkeeping (t : Transport) (req : Request) (start : Time)
    (N fuel : Nat) (hN : 1 ≤ N) (hfuel : N ≤ fuel)
    (hretry : ∀ k, 1 ≤ k → k < N →
      decisionAt t t.effectiveRetryer req start k = Decision.Retry)
    (hstop : decisionAt t t.effectiveRetryer req start N ≠ Decision.Retry) :
    (nextCalls (t.RoundTrip1 req start fuel).1).length = N
    ∧ retryerCalls (t.RoundTrip1 req start fuel).1
        = (List.range' 1 N).map (attemptAt t req start)
    ∧ ∀ k, (attemptAt t req start k).Count = k
        ∧ (attemptAt t req start k).Start = start := by
  have hdec := loop1_decomp t t.effectiveRetryer req start 1 N fuel hN (by omega)
    hretry hstop
  have htr : (t.RoundTrip1 req start fuel).1
      = (List.range' 1 (N - 1)).flatMap (retryStep t t.effectiveRetryer req start)
        ++ finalStep t t.effectiveRetryer req start N := congrArg Prod.fst hdec
  refine ⟨?_, ?_, fun k => ⟨rfl, rfl⟩⟩
  · rw [htr, nextCalls_append, nextCalls_flatMap_retryStep, nextCalls_finalStep]
    simp [List.length_range']
    omega
  · rw [htr, retryerCalls_append, retryerCalls_flatMap_retryStep,
      retryerCalls_finalStep, range'_one_split N hN, List.map_append]
    simp

/-- Policy that retries the first two attempts and then accepts, against a
transport that always fails: the C2 scenario with `N = 3`. -/
def wRetryThenIgnoreT : Transport :=
  { Delay := none
    Retry := some fun a =>
      if a.Count < 3 then (Decision.Retry, none) else (Decision.Ignore, none)
    Next := fun _ => (none, some "connection refused")
    Logger := none }

theorem roundTrip_attempt_bookkeeping_witness :
    (nextCalls (wRetryThenIgnoreT.RoundTrip1 "GET /w" 0 3).1).length = 3
    ∧ retryerCalls (wRetryThenIgnoreT.RoundTrip1 "GET /w" 0 3).1
        = (List.range' 1 3).map (attemptAt wRetryThenIgnoreT "GET /w" 0) := by
  have h := roundTrip_attempt_bookkeeping wRetryThenIgnoreT "GET /w" 0 3 3
    (by decide) (by decide) (fun k h1 h2 => by interval_cases k <;> rfl) (by decide)
  exact ⟨h.1, h.2.1⟩

/-- C5: when the retryer decides `Ignore` on the very first attempt, the
run performs exactly one underlying call and returns that call's response
and transport error unchanged; in particular any error the retryer returned
alongside `Ignore` never reaches the caller. -/
theorem ignore_first_attempt_returns_unchanged (t : Transport) (req : Request)
    (start : Time) (fuel : Nat) (hfuel : 1 ≤ fuel)
    (hd : decisionAt t t.effectiveRetryer req start 1 = Decision.Ignore) :
    nextCalls (t.RoundTrip1 req start fuel).1 = [1]
    ∧ (t.RoundTrip1 req start fuel).2 = some (respAt t 1, errAt t 1) := by
  have hstop : decisionAt t t.effectiveRetryer req start 1 ≠ Decision.Retry := by
    simp [hd]
  have hdec := loop1_decomp t t.effectiveRetryer req start 1 1 fuel le_rfl (by omega)
    (fun k h1 h2 => absurd (lt_of_le_of_lt h1 h2) (lt_irrefl 1)) hstop
  constructor
  · have htr : (t.RoundTrip1 req start fuel).1
        = (List.range' 1 0).flatMap (retryStep t t.effectiveRetryer req start)
          ++ finalStep t t.effectiveRetryer req start 1 := congrArg Prod.fst hdec
    rw [htr]
    simp [nextCalls_finalStep]
  · have hres : (t.RoundTrip1 req start fuel).2
        = some (finalResult1 t t.effectiveRetryer req start 1) := congrArg Prod.snd hdec
    rw [hres]
    simp [finalResult1, hd]

/-- Policy that accepts immediately but also reports an informational
error: the C5 scenario. -/
def wIgnoreT : Transport :=
  { Delay := none
    Retry := some fun _ => (Decision.Ignore, some "informational note")
    Next := fun _ => (some { id := 9, drainErr := none }, none)
    Logger := none }

theorem ignore_first_attempt_returns_unchanged_witness :
    nextCalls (wIgnoreT.RoundTrip1 "GET /w5" 0 1).1 = [1]
    ∧ (wIgnoreT.RoundTrip1 "GET /w5" 0 1).2
        = some (some { id := 9, drainErr := none }, none) :=
  ignore_first_attempt_returns_unchanged wIgnoreT "GET /w5" 0 1 (by decide) rfl

/-- C7: the loop terminates exactly when the effective retryer eventually
decides something other than `Retry`.  If the first non-`Retry` decision is
at attempt `N`, any fuel of at least `N` produces a result; if every
attempt is decided `Retry`, no amount of fuel produces one — there is no
internal attempt cap. -/
theorem termination_iff_non_retry_decision (t : Transport) (req : Request)
    (start : Time) (N fuel : Nat) (hN : 1 ≤ N) :
    ((∀ k, 1 ≤ k → k < N →
        decisionAt t t.effectiveRetryer req start k = Decision.Retry) →
      decisionAt t t.effectiveRetryer req start N ≠ Decision.Retry →
      N ≤ fuel →
      (t.RoundTrip1 req start fuel).2.isSome = true)
    ∧ ((∀ k, 1 ≤ k → decisionAt t t.effectiveRetryer req start k = Decision.Retry) →
      (t.RoundTrip1 req start fuel).2 = none) := by
  constructor
  · intro hretry hstop hfuel
    have hdec := loop1_decomp t t.effectiveRetryer req start 1 N fuel hN (by omega)
      hretry hstop
    rw [show (t.RoundTrip1 req start fuel).2
        = (roundTripLoop1 t t.effectiveRetryer req start 1 fuel).2 from rfl,
      congrArg Prod.snd hdec]
    rfl
  · intro hretry
    exact loop1_nonterm t t.effectiveRetryer req start fuel 1 (fun k hk => hretry k hk)

/-- Policy that retries once and then aborts: a terminating C7 scenario. -/
def wStopT : Transport :=
  { Delay := none
    Retry := some fun a =>
      if a.Count ≤ 1 then (Decision.Retry, none)
      else (Decision.Abort, some "max attempts exceeded")
    Next := fun _ => (none, some "host down")
    Logger := none }

/-- Policy that always retries: a diverging C7 scenario. -/
def wForeverT : Transport :=
  { Delay := none
    Retry := some fun _ => (Decision.Retry, none)
    Next := fun _ => (none, some "host down")
    Logger := none }

theorem termination_iff_non_retry_decision_witness :
    (wStopT.RoundTrip1 "GET /w7" 0 2).2.isSome = true
    ∧ (wForeverT.RoundTrip1 "GET /w7" 0 5).2 = none := by
  constructor
  · exact (termination_iff_non_retry_decision wStopT "GET /w7" 0 2 2 (by decide)).1
      (fun k h1 h2 => by interval_cases k <;> rfl) (by decide) (by decide)
  · exact (termination_iff_non_retry_decision wForeverT "GET /w7" 0 1 5 (by decide)).2
      (fun k hk => rfl)

/-- C8: a nil decision policy is replaced by `DefaultRetryer` before the
loop starts, in both variants, so the loop never runs with an undefined
policy. -/
theorem nil_retryer_replaced_by_default (t : Transport) (req : Request)
    (start : Time) (fuel : Nat) (h : t.Retry = none) :
    t.RoundTrip1 req start fuel = roundTripLoop1 t DefaultRetryer req start 1 fuel
    ∧ t.RoundTrip2 req start fuel = roundTripLoop2 t DefaultRetryer req start 1 fuel := by
  constructor <;>
    simp [Transport.RoundTrip1, Transport.RoundTrip2, Transport.effectiveRetryer, h]

/-- A transport configured without a decision policy: the C8 scenario. -/
def wNoPolicyT : Transport :=
  { Delay := none
    Retry := none
    Next := fun _ => (some { id := 2, drainErr := none }, none)
    Logger := none }

theorem nil_retryer_replaced_by_default_witness :
    wNoPolicyT.RoundTrip1 "GET /w8" 0 1
        = roundTripLoop1 wNoPolicyT DefaultRetryer "GET /w8" 0 1 1
    ∧ wNoPolicyT.RoundTrip2 "GET /w8" 0 1
        = roundTripLoop2 wNoPolicyT DefaultRetryer "GET /w8" 0 1 1 :=
  nil_retryer_replaced_by_default wNoPolicyT "GET /w8" 0 1 rfl

/-- C4: on a `Retry` decision for attempt `k` whose response is non-null,
the first variant's run drains the body under the 4096-byte cap, then
closes it, and both happen before underlying transport call `k + 1` is
issued. -/
theorem retry_drains_and_closes_before_next_call (t : Transport) (req : Request)
    (start : Time) (fuel k : Nat) (r : Response) (hk : 1 ≤ k) (hfuel : k + 1 ≤ fuel)
    (hretry : ∀ j, 1 ≤ j → j ≤ k →
      decisionAt t t.effectiveRetryer req start j = Decision.Retry)
    (hresp : respAt t k = some r) :
    bodyReadLimit = 4096
    ∧ occursBefore (t.RoundTrip1 req start fuel).1
        (Event.drainBody k r.id bodyReadLimit) (Event.closeBody k r.id)
    ∧ occursBefore (t.RoundTrip1 req start fuel).1
        (Event.drainBody k r.id bodyReadLimit) (Event.callNext (k + 1))
    ∧ occursBefore (t.RoundTrip1 req start fuel).1
        (Event.closeBody k r.id) (Event.callNext (k + 1)) := by
  obtain ⟨A, tail, htr, hmem⟩ :=
    loop1_split_at_retry t t.effectiveRetryer req start fuel k hk hfuel hretry
  have htr' : (t.RoundTrip1 req start fuel).1
      = A ++ (retryStep t t.effectiveRetryer req start k ++ tail) := htr
  have hdr : retryStep t t.effectiveRetryer req start k
      = stepPre t t.effectiveRetryer req start k
        ++ ([Event.drainBody k r.id bodyReadLimit]
          ++ ((match r.drainErr with
               | some e => t.logf (LogMsg.drainError e)
               | none => ([] : List Event))
            ++ ([Event.closeBody k r.id]
              ++ delayEvents t (attemptAt t req start k)))) := by
    simp [retryStep, drainEvents, hresp]
  refine ⟨rfl, ?_, ?_, ?_⟩
  · refine occursBefore_of_eq_append _
      (A ++ (stepPre t t.effectiveRetryer req start k
        ++ [Event.drainBody k r.id bodyReadLimit]))
      ((match r.drainErr with
        | some e => t.logf (LogMsg.drainError e)
        | none => ([] : List Event))
        ++ ([Event.closeBody k r.id]
          ++ (delayEvents t (attemptAt t req start k) ++ tail)))
      _ _ ?_ (by simp) (by simp)
    rw [htr', hdr]
    simp
  · refine occursBefore_of_eq_append _
      (A ++ (stepPre t t.effectiveRetryer req start k
        ++ [Event.drainBody k r.id bodyReadLimit]))
      ((match r.drainErr with
        | some e => t.logf (LogMsg.drainError e)
        | none => ([] : List Event))
        ++ ([Event.closeBody k r.id]
          ++ (delayEvents t (attemptAt t req start k) ++ tail)))
      _ _ ?_ (by simp) (by simp [hmem])
    rw [htr', hdr]
    simp
  · refine occursBefore_of_eq_append _
      (A ++ (stepPre t t.effectiveRetryer req start k
        ++ ([Event.drainBody k r.id bodyReadLimit]
          ++ ((match r.drainErr with
               | some e => t.logf (LogMsg.drainError e)
               | none => ([] : List Event))
            ++ [Event.closeBody k r.id]))))
      (delayEvents t (attemptAt t req start k) ++ tail)
      _ _ ?_ (by simp) (by simp [hmem])
    rw [htr', hdr]
    simp

/-- Policy that retries attempt 1 and accepts attempt 2, against a
transport that always produces a response: the C4 scenario. -/
def wRetryOnceT : Transport :=
  { Delay := none
    Retry := some fun a =>
      if a.Count ≤ 1 then (Decision.Retry, none) else (Decision.Ignore, none)
    Next := fun _ => (some { id := 11, drainErr := none }, none)
    Logger := none }

theorem retry_drains_and_closes_before_next_call_witness :
    bodyReadLimit = 4096
    ∧ occursBefore (wRetryOnceT.RoundTrip1 "GET /w4" 0 2).1
        (Event.drainBody 1 11 bodyReadLimit) (Event.closeBody 1 11)
    ∧ occursBefore (wRetryOnceT.RoundTrip1 "GET /w4" 0 2).1
        (Event.drainBody 1 11 bodyReadLimit) (Event.callNext 2)
    ∧ occursBefore (wRetryOnceT.RoundTrip1 "GET /w4" 0 2).1
        (Event.closeBody 1 11) (Event.callNext 2) :=
  retry_drains_and_closes_before_next_call wRetryOnceT "GET /w4" 0 2 1
    { id := 11, drainErr := none } (by decide) (by decide)
    (fun j h1 h2 => by interval_cases j <;> rfl) rfl

/-- C6: under a terminal run of the first variant, a configured delayer is
invoked exactly once per `Retry` decision — with the very attempt record
that was passed to the retryer for the triggering attempt — and the next
underlying call occurs only after that invocation; with no delayer
configured, the run contains no delayer invocation at all. -/
theorem delayer_called_once_per_retry (t : Transport) (req : Request) (start : Time)
    (N fuel : Nat) (hN : 1 ≤ N) (hfuel : N ≤ fuel)
    (hretry : ∀ k, 1 ≤ k → k < N →
      decisionAt t t.effectiveRetryer req start k = Decision.Retry)
    (hstop : decisionAt t t.effectiveRetryer req start N ≠ Decision.Retry) :
    (∀ dl, t.Delay = some dl →
      delayerCalls (t.RoundTrip1 req start fuel).1
          = (List.range' 1 (N - 1)).map (attemptAt t req start)
      ∧ ∀ k, 1 ≤ k → k < N →
          occursBefore (t.RoundTrip1 req start fuel).1
            (Event.callDelayer (attemptAt t req start k)) (Event.callNext (k + 1)))
    ∧ (t.Delay = none → delayerCalls (t.RoundTrip1 req start fuel).1 = []) := by
  have hdec := loop1_decomp t t.effectiveRetryer req start 1 N fuel hN (by omega)
    hretry hstop
  have htr : (t.RoundTrip1 req start fuel).1
      = (List.range' 1 (N - 1)).flatMap (retryStep t t.effectiveRetryer req start)
        ++ finalStep t t.effectiveRetryer req start N := congrArg Prod.fst hdec
  constructor
  · intro dl hD
    constructor
    · rw [htr, delayerCalls_append,
        delayerCalls_flatMap_retryStep_some t t.effectiveRetryer req start _ dl hD,
        delayerCalls_finalStep]
      simp
    · intro k hk1 hk2
      obtain ⟨A, tail, htr2, hmem⟩ := loop1_split_at_retry t t.effectiveRetryer req
        start fuel k hk1 (by omega) (fun j hj1 hj2 => hretry j hj1 (by omega))
      have htr2' : (t.RoundTrip1 req start fuel).1
          = A ++ (retryStep t t.effectiveRetryer req start k ++ tail) := htr2
      refine occursBefore_of_eq_append _
        (A ++ retryStep t t.effectiveRetryer req start k) tail _ _ ?_ ?_ hmem
      · rw [htr2']
        simp
      · exact List.mem_append_right _
          (callDelayer_mem_retryStep t t.effectiveRetryer req start k dl hD)
  · intro hD
    rw [htr, delayerCalls_append,
      delayerCalls_flatMap_retryStep_none t t.effectiveRetryer req start _ hD,
      delayerCalls_finalStep]
    rfl

/-- Retry-once scenario with a configured delayer: the C6 scenario. -/
def wDelayT : Transport :=
  { Delay := some fun _ => ()
    Retry := some fun a =>
      if a.Count ≤ 1 then (Decision.Retry, none) else (Decision.Ignore, none)
    Next := fun _ => (none, some "timeout")
    Logger := none }

/-- The same scenario without a delayer. -/
def wNoDelayT : Transport :=
  { Delay := none
    Retry := some fun a =>
      if a.Count ≤ 1 then (Decision.Retry, none) else (Decision.Ignore, none)
    Next := fun _ => (none, some "timeout")
    Logger := none }

theorem delayer_called_once_per_retry_witness :
    delayerCalls (wDelayT.RoundTrip1 "GET /w6" 0 2).1
        = (List.range' 1 1).map (attemptAt wDelayT "GET /w6" 0)
    ∧ delayerCalls (wNoDelayT.RoundTrip1 "GET /w6" 0 2).1 = [] := by
  constructor
  · exact ((delayer_called_once_per_retry wDelayT "GET /w6" 0 2 2 (by decide) (by decide)
      (fun k h1 h2 => by interval_cases k <;> rfl) (by decide)).1 (fun _ => ()) rfl).1
  · exact (delayer_called_once_per_retry wNoDelayT "GET /w6" 0 2 2 (by decide) (by decide)
      (fun k h1 h2 => by interval_cases k <;> rfl) (by decide)).2 rfl

/-- C9: configuring a logger changes nothing but the log lines: the
returned pair, the underlying transport calls, and the attempts passed to
the retryer and the delayer are the same with and without a logger, in both
variants. -/
theorem logger_does_not_change_behavior (t : Transport) (req : Request)
    (start : Time) (fuel : Nat) :
    ({t with Logger := none}.RoundTrip1 req start fuel).2
        = ({t with Logger := some ()}.RoundTrip1 req start fuel).2
    ∧ nextCalls ({t with Logger := none}.RoundTrip1 req start fuel).1
        = nextCalls ({t with Logger := some ()}.RoundTrip1 req start fuel).1
    ∧ retryerCalls ({t with Logger := none}.RoundTrip1 req start fuel).1
        = retryerCalls ({t with Logger := some ()}.RoundTrip1 req start fuel).1
    ∧ delayerCalls ({t with Logger := none}.RoundTrip1 req start fuel).1
        = delayerCalls ({t with Logger := some ()}.RoundTrip1 req start fuel).1
    ∧ ({t with Logger := none}.RoundTrip2 req start fuel).2
        = ({t with Logger := some ()}.RoundTrip2 req start fuel).2
    ∧ nextCalls ({t with Logger := none}.RoundTrip2 req start fuel).1
        = nextCalls ({t with Logger := some ()}.RoundTrip2 req start fuel).1
    ∧ retryerCalls ({t with Logger := none}.RoundTrip2 req start fuel).1
        = retryerCalls ({t with Logger := some ()}.RoundTrip2 req start fuel).1
    ∧ delayerCalls ({t with Logger := none}.RoundTrip2 req start fuel).1
        = delayerCalls ({t with Logger := some ()}.RoundTrip2 req start fuel).1 := by
  obtain ⟨d, r, n, l⟩ := t
  simp only [Transport.RoundTrip1, Transport.RoundTrip2]
  rw [show Transport.effectiveRetryer (⟨d, r, n, some ()⟩ : Transport)
      = Transport.effectiveRetryer ⟨d, r, n, none⟩ from rfl]
  set E := Transport.effectiveRetryer (⟨d, r, n, (none : Option Unit)⟩ : Transport) with hE
  have hXn : ∀ tr tl : List Event,
      tr.filter (fun e => !e.isLog) = tl.filter (fun e => !e.isLog) →
      nextCalls tr = nextCalls tl ∧ retryerCalls tr = retryerCalls tl
        ∧ delayerCalls tr = delayerCalls tl := by
    intro tr tl h
    refine ⟨?_, ?_, ?_⟩
    · rw [← nextCalls_filter_notLog tr, ← nextCalls_filter_notLog tl, h]
    · rw [← retryerCalls_filter_notLog tr, ← retryerCalls_filter_notLog tl, h]
    · rw [← delayerCalls_filter_notLog tr, ← delayerCalls_filter_notLog tl, h]
  have hL := loop1_logger d r n E req start fuel 1
  obtain ⟨hn1, hr1, hd1⟩ := hXn _ _ hL.1
  have hL2 : (roundTripLoop2 ⟨d, r, n, none⟩ E req start 1 fuel).1.filter
        (fun e => !e.isLog)
      = (roundTripLoop2 ⟨d, r, n, some ()⟩ E req start 1 fuel).1.filter
        (fun e => !e.isLog) := by
    rw [loop2_trace_eq (⟨d, r, n, none⟩ : Transport) E req start fuel 1,
      loop2_trace_eq (⟨d, r, n, some ()⟩ : Transport) E req start fuel 1, hL.1]
  obtain ⟨hn2, hr2, hd2⟩ := hXn _ _ hL2
  exact ⟨hL.2, hn1, hr1, hd1, loop2_logger_result d r n E req start fuel 1,
    hn2, hr2, hd2⟩

/-- C10 (amended): the two `RoundTrip` variants produce identical traces —
the same transport, retryer, drain, close, delayer and log events in the
same order — and they return the same pair, except that where the first
variant returns a non-null response (the aborted attempt's response, on an
`Abort` decision) the second returns null alongside the same error. -/
theorem variants_agree_except_abort_response (t : Transport) (req : Request)
    (start : Time) (fuel : Nat) :
    (t.RoundTrip2 req start fuel).1 = (t.RoundTrip1 req start fuel).1
    ∧ ((t.RoundTrip2 req start fuel).2 = (t.RoundTrip1 req start fuel).2
      ∨ ∃ r e, (t.RoundTrip1 req start fuel).2 = some (some r, e)
          ∧ (t.RoundTrip2 req start fuel).2 = some (none, e)) :=
  ⟨loop2_trace_eq t t.effectiveRetryer req start fuel 1,
   loop2_result_rel t t.effectiveRetryer req start fuel 1⟩

/-- A transport whose first attempt yields a non-null response while the
policy aborts at once with its own error. -/
def variantGapT : Transport :=
  { Delay := none
    Retry := some fun _ => (Decision.Abort, some "boom")
    Next := fun _ => (some { id := 3, drainErr := none }, none)
    Logger := none }

/-- C10 (counterexample): the two variants are not equivalent — on an
`Abort` with a non-null response, the first returns the response and the
second returns null, so they disagree on the returned pair. -/
theorem variants_disagree_on_abort :
    (variantGapT.RoundTrip1 "GET /z" 0 1).2 ≠ (variantGapT.RoundTrip2 "GET /z" 0 1).2 := by
  decide

/-- Abort-with-response scenario for C1. -/
def abortWithResponseT : Transport :=
  { Delay := none
    Retry := some fun _ => (Decision.Abort, some "policy abort")
    Next := fun _ => (some { id := 7, drainErr := none }, none)
    Logger := none }

/-- C1 (evaluation at the failing input): when the policy aborts an attempt
whose response is non-null, the first variant returns that non-null
response together with the policy's error — its own comment (`nil as
response`), the second variant, and the claim all say the returned response
must be null.  The policy's error, not the transport error, is returned by
both variants. -/
theorem abort_first_variant_returns_nonnull_response :
    (abortWithResponseT.RoundTrip1 "GET /x" 0 1).2
        = some (some { id := 7, drainErr := none }, some "policy abort")
    ∧ (abortWithResponseT.RoundTrip2 "GET /x" 0 1).2
        = some (none, some "policy abort") :=
  ⟨rfl, rfl⟩

/-- Abort-with-response scenario for C3. -/
def abortLeakT : Transport :=
  { Delay := none
    Retry := some fun _ => (Decision.Abort, some "stop")
    Next := fun _ => (some { id := 5, drainErr := none }, none)
    Logger := none }

/-- C3 (evaluation at the failing input): on an `Abort` whose attempt has a
non-null response, neither variant drains or closes the response body
before returning — the trace of either run contains no drain and no close
event — even though the second variant discards the response entirely. -/
theorem abort_leaks_response_body :
    respAt abortLeakT 1 = some { id := 5, drainErr := none }
    ∧ ((abortLeakT.RoundTrip1 "GET /y" 0 1).1.all
        fun e => !e.isDrain && !e.isClose) = true
    ∧ ((abortLeakT.RoundTrip2 "GET /y" 0 1).1.all
        fun e => !e.isDrain && !e.isClose) = true
    ∧ (abortLeakT.RoundTrip2 "GET /y" 0 1).2 = some (none, some "stop") :=
  ⟨rfl, rfl, rfl, rfl⟩

end Retry
